import Mathlib

/-!
Verification of the SPIN core of `self_rewarding_lm_pytorch/spin.py`.

The embedding below translates, from the source:
  * `masked_mean` (numerically safe masked mean over the trailing dimension),
  * `log_prob_from_model_and_seq` (teacher-forced per-position log-probabilities),
  * `maybe_and_mask` (conjunction of optional boolean masks),
  * the `SPIN` module: construction (deep copy + freeze of the reference model),
    `update_reference_model_with_policy`, and `forward` (the SPIN loss).

Modelling choices:
  * token tensors are `ITensor` values (an explicit shape plus row-major data),
    so the runtime rank-2 assertion of `SPIN.forward` is meaningful;
  * a model is a parameter value together with an architecture function mapping
    one token sequence to per-position logits over a vocabulary of size `V`;
    batches are processed row by row (rows of a batch do not interact);
  * floating-point numerics are idealised as real arithmetic; `forward` returns,
    besides the `Except`-valued loss, the (possibly mutated) sequence tensors,
    and a chronological trace of the reads / in-place mutations of the input
    tensors and of the model evaluations, so that statements about what happens
    before an error is raised are expressible;
  * shape mismatches that would raise at runtime in the tensor library are
    modelled as `Except.error`; broadcasting is modelled on the batch (row)
    dimension, where `SPIN.forward` can exercise it; the position dimension is
    required to match exactly.
-/

namespace SpinVerify

/-- Boolean success test for `Except` values. -/
def exceptOk {ε α : Type} : Except ε α → Bool
  | .ok _ => true
  | .error _ => false

/-- Observable effects of `SPIN.forward` on caller-visible state, recorded in
chronological order: element reads of the three input tensors, in-place
mutations of the two sequence tensors, and model evaluations. -/
inductive REvent where
  | readPromptLen
  | readGeneratedSeq
  | readRealSeq
  | mutateGeneratedSeq
  | mutateRealSeq
  | evalRefModel
  | evalPolicyModel
deriving DecidableEq

/-- An integer tensor: an explicit shape together with the row-major data.
Well-formed tensors satisfy `data.length = shape.prod`. -/
structure ITensor where
  shape : List ℕ
  data : List ℤ
deriving DecidableEq

/-- Number of dimensions of a tensor (`Tensor.ndim`). -/
def ITensor.ndim (t : ITensor) : ℕ := t.shape.length

/-- Split a flat list into consecutive chunks of length `n` (row-major rows of
a rank-2 tensor whose trailing dimension is `n`). -/
def chunks {α : Type} (n : ℕ) : List α → List (List α)
  | [] => []
  | x :: xs => (x :: xs.take (n - 1)) :: chunks n (xs.drop (n - 1))
termination_by l => l.length
decreasing_by
  simp only [List.length_drop, List.length_cons]
  omega

/-- The rows of a rank-2 tensor. -/
def ITensor.rows2 (t : ITensor) : List (List ℤ) := chunks (t.shape.getD 1 0) t.data

/-- A model: trainable parameters plus an architecture, i.e. a function from the
parameters and one token sequence to per-position logits over a vocabulary of
size `V` (the external model interface of the spec). The `training` and
`requiresGrad` flags mirror the corresponding torch module state; the
architecture itself is deterministic and does not read them. -/
structure Model (P : Type) (V : ℕ) where
  params : P
  arch : P → List ℤ → List (Fin V → ℝ)
  training : Bool
  requiresGrad : Bool

/-- Run a model on one token sequence, producing per-position logits. -/
def Model.run {P : Type} {V : ℕ} (m : Model P V) (seq : List ℤ) : List (Fin V → ℝ) :=
  m.arch m.params seq

/-- Shape contract of the model interface: one logit row per input position. -/
def Model.WF {P : Type} {V : ℕ} (m : Model P V) : Prop :=
  ∀ seq : List ℤ, (m.run seq).length = seq.length

/-- The effect of `module.eval()` on module state: clear the training flag. -/
def Model.evalMode {P : Type} {V : ℕ} (m : Model P V) : Model P V :=
  { m with training := false }

/-- Source: `freeze_all_layers_` — set `requires_grad = False` on every
parameter of the module. -/
def freeze_all_layers_ {P : Type} {V : ℕ} (m : Model P V) : Model P V :=
  { m with requiresGrad := false }

/-- Softmax over the vocabulary dimension: `logits.softmax(dim = -1)`. -/
noncomputable def softmax {V : ℕ} (x : Fin V → ℝ) (i : Fin V) : ℝ :=
  Real.exp (x i) / ∑ j, Real.exp (x j)

/-- `probs.gather(-1, seq)` at one position: the probability the distribution
assigns to token id `t`. A gather index outside `[0, V)` is a runtime error in
the tensor library; it is modelled as probability `0` here (none of the
properties below inspects the value at an out-of-range token). -/
def gatherProb {V : ℕ} (p : Fin V → ℝ) (t : ℤ) : ℝ :=
  if h : 0 ≤ t ∧ t.toNat < V then p ⟨t.toNat, h.2⟩ else 0

/-- Source: `log_prob_from_model_and_seq(model, seq, eps = 1e-20)` — softmax the
logits, gather the probability of the token actually present at each position,
clamp to `eps` from below, and take the log. -/
noncomputable def log_prob_from_model_and_seq {P : Type} {V : ℕ}
    (model : Model P V) (seq : List ℤ) (eps : ℝ) : List ℝ :=
  List.zipWith (fun lrow tok => Real.log (max (gatherProb (softmax lrow) tok) eps))
    (model.run seq) seq

/-- `F.logsigmoid`: `log (1 / (1 + exp (-x)))`. -/
noncomputable def logsigmoid (x : ℝ) : ℝ :=
  Real.log (1 / (1 + Real.exp (-x)))

/-- The per-row SPIN loss of `SPIN.forward`:
`-F.logsigmoid(λ * ((policy_real - ref_real) - (policy_generated - ref_generated)))`. -/
noncomputable def lossPerRow (lam policy_real ref_real policy_generated ref_generated : ℝ) : ℝ :=
  -(logsigmoid (lam * ((policy_real - ref_real) - (policy_generated - ref_generated))))

/-- Source: `masked_mean(tensor, mask, dim = -1, eps = 1e-5)`, one row at a
time (the reduction dimension is the trailing one). Without a mask it is the
plain mean; with a mask, masked-out entries are zeroed (`masked_fill_`), the sum
is divided by the count of valid entries clamped below by `eps`, and rows whose
valid count is zero are force-set to `0` (the final `masked_fill_`). -/
def masked_mean {α : Type} [LinearOrderedField α]
    (tensor : List α) (mask : Option (List Bool)) (eps : α) : α :=
  match mask with
  | none => tensor.sum / (tensor.length : α)
  | some m =>
    let t := List.zipWith (fun x b => if b then x else (0 : α)) tensor m
    let total_el : ℕ := m.count true
    let mean := t.sum / max eps (total_el : α)
    if total_el = 0 then 0 else mean

/-- Pair up two row lists, broadcasting a singleton row list against the other
(the batch-dimension part of the broadcasting rule of elementwise tensor ops);
`none` when the row counts are incompatible. -/
def bcastPairs {α β : Type} (a : List α) (b : List β) : Option (List (α × β)) :=
  if a.length = b.length then some (a.zip b)
  else
    match a, b with
    | [x], ys => some (ys.map (fun y => (x, y)))
    | xs, [y] => some (xs.map (fun x => (x, y)))
    | _, _ => none

/-- Elementwise `mask1 & mask2` on rank-2 boolean masks, broadcasting on the
batch dimension; the position dimension must match exactly. -/
def andMask (m1 m2 : List (List Bool)) : Option (List (List Bool)) :=
  match bcastPairs m1 m2 with
  | none => none
  | some ps =>
    if ∀ pr ∈ ps, (Prod.fst pr).length = (Prod.snd pr).length then
      some (ps.map (fun pr => List.zipWith (fun a b => a && b) pr.1 pr.2))
    else none

/-- Source: `maybe_and_mask(*masks)` — drop absent masks and fold `&` over the
rest (binary form: `SPIN.forward` always calls it on two masks). A shape
mismatch in `&` is a runtime error. -/
def maybe_and_mask (a b : Option (List (List Bool))) :
    Except String (Option (List (List Bool))) :=
  match a, b with
  | none, none => .ok none
  | some m, none => .ok (some m)
  | none, some m => .ok (some m)
  | some m1, some m2 =>
    match andMask m1 m2 with
    | none => .error "shape mismatch in mask conjunction"
    | some m => .ok (some m)

/-- `masked_mean` applied to a rank-2 tensor (a list of rows) with an optional
rank-2 mask, reducing over the trailing dimension. The mask is broadcast
against the tensor on the batch dimension (`masked_fill_` / the division inside
`masked_mean` broadcast); incompatible shapes are a runtime error. -/
def masked_mean_batched {α : Type} [LinearOrderedField α]
    (t : List (List α)) (m : Option (List (List Bool))) (eps : α) :
    Except String (List α) :=
  match m with
  | none => .ok (t.map (fun row => masked_mean row none eps))
  | some mrows =>
    let pairs : Option (List (List α × List Bool)) :=
      if mrows.length = t.length then some (t.zip mrows)
      else
        match mrows with
        | [mr] => some (t.map (fun r => (r, mr)))
        | _ => none
    match pairs with
    | none => .error "shape mismatch in masked_mean"
    | some ps =>
      if ∀ pr ∈ ps, (Prod.fst pr).length = (Prod.snd pr).length then
        .ok (ps.map (fun pr => masked_mean pr.1 (some pr.2) eps))
      else .error "shape mismatch in masked_mean"

/-- Negation of a rank-2 boolean mask (`~mask`). -/
def notMask (m : List (List Bool)) : List (List Bool) :=
  m.map (fun r => r.map (fun b => !b))

/-- The prompt mask `torch.arange(n) < prompt_len[:, None]`: one boolean row
per prompt length, true at position `j` iff `j < prompt_len[i]`. -/
def promptMask (n : ℕ) (pl : List ℤ) : List (List Bool) :=
  pl.map (fun L => (List.range n).map (fun (j : ℕ) => decide ((j : ℤ) < L)))

/-- In-place `seq.masked_fill_(~(seq != pad_id), 0)`: zero every pad position. -/
def maskFillPad (pid : ℤ) (t : ITensor) : ITensor :=
  { t with data := t.data.map (fun x => if x = pid then 0 else x) }

/-- The validity mask `seq != pad_id`, row by row. -/
def padMaskRows (pid : ℤ) (rows : List (List ℤ)) : List (List Bool) :=
  rows.map (fun row => row.map (fun tok => decide (tok ≠ pid)))

/-- The `SPIN` module state: policy model, reference model, the coefficient λ,
and the optional pad token id. -/
structure SPIN (P : Type) (V : ℕ) where
  policy_model : Model P V
  ref_model : Model P V
  lam : ℝ
  pad_id : Option ℤ

/-- `SPIN.__init__`: store the policy, deep-copy it into the reference model and
freeze all the reference parameters, store λ and the pad id. -/
def SPIN.mk' {P : Type} {V : ℕ} (model : Model P V) (lam : ℝ) (pad_id : Option ℤ) :
    SPIN P V :=
  { policy_model := model
    ref_model := freeze_all_layers_ model
    lam := lam
    pad_id := pad_id }

/-- `SPIN.update_reference_model_with_policy`:
`self.ref_model.load_state_dict(self.policy_model.state_dict())` — overwrite the
complete parameter state of the reference model with the policy's. -/
def SPIN.update_reference_model_with_policy {P : Type} {V : ℕ} (s : SPIN P V) : SPIN P V :=
  { s with ref_model := { s.ref_model with params := s.policy_model.params } }

/-- Result of one `SPIN.forward` call: the `Except`-valued scalar loss, the
(possibly mutated in place) two input sequence tensors, the prompt-length input
(never mutated), and the chronological trace of observable effects. -/
structure ForwardResult where
  out : Except String ℝ
  genOut : ITensor
  realOut : ITensor
  promptLenOut : Option (List ℤ)
  events : List REvent

/-- Data prepared by the argument-checking / masking prefix of `SPIN.forward`
(everything before the model evaluations). -/
structure Prep where
  genT : ITensor
  realT : ITensor
  genMask : Option (List (List Bool))
  realMask : Option (List (List Bool))
  genPromptMask : List (List Bool)
  realPromptMask : List (List Bool)
  pl : List ℤ
  events : List REvent

/-- The prefix of `SPIN.forward` (source order):
`assert generated_seq.ndim == real_seq.ndim == 2`; build
`real_prompt_mask` and `generated_prompt_mask` from `prompt_len` (a `None`
`prompt_len` raises here, at `prompt_len[:, None]`); if a pad id is configured,
assert that no explicit masks were passed, derive the validity masks from the
pad id, and zero the pad positions of both sequences in place. -/
def SPIN.forwardPrep {P : Type} {V : ℕ} (s : SPIN P V)
    (generated_seq real_seq : ITensor)
    (prompt_len : Option (List ℤ))
    (generated_seq_mask real_seq_mask : Option (List (List Bool))) :
    Except ForwardResult Prep :=
  if generated_seq.ndim = 2 ∧ real_seq.ndim = 2 then
    match prompt_len with
    | none =>
      .error ⟨.error "TypeError: prompt_len is not subscriptable",
              generated_seq, real_seq, none, []⟩
    | some pl =>
      let real_prompt_mask := promptMask (real_seq.shape.getD 1 0) pl
      let generated_prompt_mask := promptMask (generated_seq.shape.getD 1 0) pl
      let ev := [REvent.readPromptLen, REvent.readPromptLen]
      match s.pad_id with
      | some pid =>
        if generated_seq_mask.isSome then
          .error ⟨.error "assert failed: generated_seq_mask with pad_id",
                  generated_seq, real_seq, some pl, ev⟩
        else if real_seq_mask.isSome then
          .error ⟨.error "assert failed: real_seq_mask with pad_id",
                  generated_seq, real_seq, some pl, ev⟩
        else
          let gmask := padMaskRows pid generated_seq.rows2
          let genT := maskFillPad pid generated_seq
          let rmask := padMaskRows pid real_seq.rows2
          let realT := maskFillPad pid real_seq
          .ok ⟨genT, realT, some gmask, some rmask,
               generated_prompt_mask, real_prompt_mask, pl,
               ev ++ [REvent.readGeneratedSeq, REvent.mutateGeneratedSeq,
                      REvent.readRealSeq, REvent.mutateRealSeq]⟩
      | none =>
        .ok ⟨generated_seq, real_seq, generated_seq_mask, real_seq_mask,
             generated_prompt_mask, real_prompt_mask, pl, ev⟩
  else
    .error ⟨.error "assert failed: generated_seq.ndim == real_seq.ndim == 2",
            generated_seq, real_seq, prompt_len, []⟩

/-- The `masked_mean` eps default used by `SPIN.forward`. -/
def mmeps : ℝ := 1e-5

/-- The `log_prob_from_model_and_seq` eps default used by `SPIN.forward`. -/
def lpeps : ℝ := 1e-20

/-- The main part of `SPIN.forward` (source order): evaluate the reference model
(under `torch.no_grad()`, after `self.ref_model.eval()`) and the policy model on
both sequences; reduce each of the four log-probability tensors with
`masked_mean` under `maybe_and_mask(seq_mask, ~prompt_mask)`; form the per-row
SPIN losses and return their batch mean. -/
noncomputable def SPIN.forwardMainOut {P : Type} {V : ℕ} (s : SPIN P V) (p : Prep) :
    Except String ℝ :=
  let genRows := p.genT.rows2
  let realRows := p.realT.rows2
  let ref_generated_logprob := genRows.map
    (fun r => log_prob_from_model_and_seq s.ref_model r lpeps)
  let ref_real_logprob := realRows.map
    (fun r => log_prob_from_model_and_seq s.ref_model r lpeps)
  let policy_generated_logprob := genRows.map
    (fun r => log_prob_from_model_and_seq s.policy_model r lpeps)
  let policy_real_logprob := realRows.map
    (fun r => log_prob_from_model_and_seq s.policy_model r lpeps)
  match maybe_and_mask p.genMask (some (notMask p.genPromptMask)) with
  | .error e => .error e
  | .ok genFullMask =>
    match maybe_and_mask p.realMask (some (notMask p.realPromptMask)) with
    | .error e => .error e
    | .ok realFullMask =>
      match masked_mean_batched policy_generated_logprob genFullMask mmeps with
      | .error e => .error e
      | .ok policy_generated_ms =>
        match masked_mean_batched ref_generated_logprob genFullMask mmeps with
        | .error e => .error e
        | .ok ref_generated_ms =>
          match masked_mean_batched policy_real_logprob realFullMask mmeps with
          | .error e => .error e
          | .ok policy_real_ms =>
            match masked_mean_batched ref_real_logprob realFullMask mmeps with
            | .error e => .error e
            | .ok ref_real_ms =>
              let step1 := List.zipWith (lossPerRow s.lam) policy_real_ms ref_real_ms
              let step2 := List.zipWith (fun f x => f x) step1 policy_generated_ms
              let losses := List.zipWith (fun f x => f x) step2 ref_generated_ms
              .ok (losses.sum / (losses.length : ℝ))

/-- The result record of the main part of `SPIN.forward`: besides the loss (or
the propagated shape error — every such error fires after the in-place pad
zeroing and the model evaluations), the tensors as the call leaves them and the
full event trace. -/
noncomputable def SPIN.forwardMain {P : Type} {V : ℕ} (s : SPIN P V) (p : Prep) :
    ForwardResult :=
  ForwardResult.mk (s.forwardMainOut p) p.genT p.realT (some p.pl)
    (p.events ++ [REvent.evalRefModel, REvent.evalRefModel,
                  REvent.evalPolicyModel, REvent.evalPolicyModel])

/-- `SPIN.forward(generated_seq, real_seq, prompt_len, generated_seq_mask,
real_seq_mask)`, as a transformer of the module state (the only state the body
touches is `self.ref_model.eval()` on the successful-prefix path). -/
noncomputable def SPIN.forward {P : Type} {V : ℕ} (s : SPIN P V)
    (generated_seq real_seq : ITensor)
    (prompt_len : Option (List ℤ))
    (generated_seq_mask real_seq_mask : Option (List (List Bool))) :
    SPIN P V × ForwardResult :=
  match s.forwardPrep generated_seq real_seq prompt_len generated_seq_mask real_seq_mask with
  | .error res => (s, res)
  | .ok prep =>
    ({ s with ref_model := s.ref_model.evalMode }, s.forwardMain prep)

/-- The argument tuple of one `SPIN.forward` call. -/
structure CallInput where
  generated_seq : ITensor
  real_seq : ITensor
  prompt_len : Option (List ℤ)
  generated_seq_mask : Option (List (List Bool))
  real_seq_mask : Option (List (List Bool))

/-- Thread the module state through any number of `SPIN.forward` calls. -/
noncomputable def applyForwardCalls {P : Type} {V : ℕ} (s : SPIN P V) :
    List CallInput → SPIN P V
  | [] => s
  | c :: cs =>
    applyForwardCalls
      (s.forward c.generated_seq c.real_seq c.prompt_len
        c.generated_seq_mask c.real_seq_mask).1 cs

/-! ### Spec-side definitions

These are written from the specification's words, to be compared with the
definitions above, which are translated from the source. -/

/-- Spec §4.1, stated from its words: the mean of a row restricted to the
positions its boolean mask marks `True`; exactly `0` for a row with no valid
position. -/
def specMaskedMean {α : Type} [LinearOrderedField α] (xs : List α) (sel : List Bool) : α :=
  let chosen := ((xs.zip sel).filter (fun pr => pr.2)).map (fun pr => pr.1)
  if chosen.length = 0 then 0 else chosen.sum / (chosen.length : α)

/-- The claim's aggregation positions for one row, stated from its words:
position `j` is kept iff it is valid (its token differs from the pad id) and it
is not in the prompt (position index `≥` the row's prompt length). -/
def specSelMask (seqRow : List ℤ) (pid : ℤ) (plen : ℤ) : List Bool :=
  (List.range seqRow.length).map
    (fun j => decide (seqRow.getD j 0 ≠ pid) && decide (plen ≤ (j : ℤ)))

/-- One row zeroed at its pad positions (the spec's "pad positions are zeroed
... after mask derivation"). -/
def zeroRow (pid : ℤ) (row : List ℤ) : List ℤ :=
  row.map (fun x => if x = pid then 0 else x)

/-- The claim's per-(model × sequence) scalar for one row: the Masked-Reduction
mean of the model's per-token log-probabilities (of the pad-zeroed row, as the
spec prescribes) over exactly the valid-and-not-prompt positions. -/
noncomputable def specRowScore {P : Type} {V : ℕ} (m : Model P V)
    (seqRow : List ℤ) (pid : ℤ) (plen : ℤ) : ℝ :=
  specMaskedMean (log_prob_from_model_and_seq m (zeroRow pid seqRow) lpeps)
    (specSelMask seqRow pid plen)

/-- The claim's loss, stated from its words: pair the generated row, the real
row and the prompt length row by row; per row take
`-log_sigmoid(λ * ((policy_real - ref_real) - (policy_generated - ref_generated)))`
on the four Masked-Reduction scalars; return the batch mean. -/
noncomputable def specSPINLoss {P : Type} {V : ℕ} (s : SPIN P V) (pid : ℤ)
    (genRows realRows : List (List ℤ)) (pl : List ℤ) : ℝ :=
  let rowLoss := fun (genRow realRow : List ℤ) (plen : ℤ) =>
    -(logsigmoid (s.lam *
      ((specRowScore s.policy_model realRow pid plen
          - specRowScore s.ref_model realRow pid plen)
        - (specRowScore s.policy_model genRow pid plen
          - specRowScore s.ref_model genRow pid plen))))
  let losses := List.zipWith (fun pr plen => rowLoss pr.1 pr.2 plen)
    (genRows.zip realRows) pl
  losses.sum / (losses.length : ℝ)

/-- Spec §4.2 at one position, stated from its words: the log of the
(eps-clamped from below) probability that the model's softmax distribution at
position `i` assigns to the token actually occurring at that position of the
input (the teacher-forced next-token framing). -/
noncomputable def specNextTokenLogProb {P : Type} {V : ℕ} (m : Model P V)
    (seq : List ℤ) (eps : ℝ) (i : ℕ) : ℝ :=
  Real.log (max (gatherProb (softmax ((m.run seq).getD i (fun _ => 0))) (seq.getD i 0)) eps)

/-! ### Concrete instances used by the closed witnesses below -/

/-- A small concrete model: vocabulary of size 2 and uniform (zero) logits at
every position. -/
def cModel : Model Unit 2 :=
  { params := ()
    arch := fun _ seq => seq.map (fun _ => fun _ => 0)
    training := true
    requiresGrad := true }

/-- A small concrete `SPIN` instance over `cModel`, with pad id `-1`. -/
noncomputable def cSPIN : SPIN Unit 2 := SPIN.mk' cModel 1 (some (-1))

/-! ### Claim theorems -/

/-- C3: for every row tensor and boolean mask, a mask whose valid-position
count is zero makes `masked_mean` return exactly `0` for that row. The epsilon
is universally quantified — including `eps = 0`, where the clamp gives no
protection at all — so the result is forced by the final
`mean.masked_fill_(total_el == 0, 0.)` and is not an accident of the epsilon
clamp on the divisor. -/
theorem masked_mean_zero_valid_count {α : Type} [LinearOrderedField α]
    (tensor : List α) (m : List Bool) (eps : α)
    (h : m.count true = 0) : masked_mean tensor (some m) eps = 0 := by
  simp only [masked_mean, h]
  simp

/-- Witness for C3: a concrete all-`False` mask row, with `eps = 0`, yields
exactly `0`. -/
theorem masked_mean_zero_valid_count_witness :
    ([false, false] : List Bool).count true = 0 ∧
      masked_mean [(3 : ℚ), -2] (some [false, false]) 0 = 0 :=
  ⟨by decide, masked_mean_zero_valid_count [(3 : ℚ), -2] [false, false] 0 (by decide)⟩

/-- C9: the per-row SPIN loss of `SPIN.forward` is invariant under adding the
same constant to the four masked-mean scalars simultaneously — only the
cross-differences enter the `logsigmoid` argument. -/
theorem lossPerRow_constant_shift (lam pr rr pg rg c : ℝ) :
    lossPerRow lam (pr + c) (rr + c) (pg + c) (rg + c) = lossPerRow lam pr rr pg rg := by
  have h : ((pr + c) - (rr + c)) - ((pg + c) - (rg + c)) = (pr - rr) - (pg - rg) := by
    ring
  unfold lossPerRow
  rw [h]

/-- C10: with `prompt_len = None`, `SPIN.forward` always fails — the prompt-mask
construction subscripts `prompt_len` unconditionally — so no loss is ever
produced, and a non-`None` prompt-length vector is a de-facto precondition of
every successful call despite the `Optional` annotation. -/
theorem forward_none_prompt_len_always_fails {P : Type} {V : ℕ} (s : SPIN P V)
    (generated_seq real_seq : ITensor)
    (generated_seq_mask real_seq_mask : Option (List (List Bool))) :
    exceptOk (s.forward generated_seq real_seq none
        generated_seq_mask real_seq_mask).2.out = false := by
  unfold SPIN.forward SPIN.forwardPrep
  by_cases h : generated_seq.ndim = 2 ∧ real_seq.ndim = 2
  · simp only [if_pos h]
    rfl
  · simp only [if_neg h]
    rfl

/-- One `SPIN.forward` call leaves the reference model's parameters untouched:
every branch returns either the unchanged module state or the state after
`self.ref_model.eval()`, which only clears the training-mode flag. -/
theorem forward_preserves_ref_params {P : Type} {V : ℕ} (s : SPIN P V)
    (g r : ITensor) (pl : Option (List ℤ)) (gm rm : Option (List (List Bool))) :
    (s.forward g r pl gm rm).1.ref_model.params = s.ref_model.params := by
  unfold SPIN.forward
  cases h : s.forwardPrep g r pl gm rm <;> simp [Model.evalMode]

/-- C4: the reference model's parameters are unchanged by any number of
`SPIN.forward` calls, with any inputs; only the explicit
`update_reference_model_with_policy` operation writes them. -/
theorem ref_params_unchanged_by_forward_calls {P : Type} {V : ℕ} (s : SPIN P V)
    (calls : List CallInput) :
    (applyForwardCalls s calls).ref_model.params = s.ref_model.params := by
  induction calls generalizing s with
  | nil => rfl
  | cons c cs ih =>
    rw [applyForwardCalls, ih]
    exact forward_preserves_ref_params s c.generated_seq c.real_seq c.prompt_len
      c.generated_seq_mask c.real_seq_mask

/-- C5: `update_reference_model_with_policy` overwrites the complete reference
parameter state with the policy's current parameters, so — the two models
sharing one architecture, as they do from construction on — an immediately
following forward pass of both models on any identical input yields identical
per-token log-probabilities. -/
theorem sync_reference_full_overwrite {P : Type} {V : ℕ} (s : SPIN P V)
    (h : s.ref_model.arch = s.policy_model.arch) :
    (SPIN.update_reference_model_with_policy s).ref_model.params
        = (SPIN.update_reference_model_with_policy s).policy_model.params
    ∧ ∀ (seq : List ℤ) (eps : ℝ),
        log_prob_from_model_and_seq
            (SPIN.update_reference_model_with_policy s).ref_model seq eps
          = log_prob_from_model_and_seq
            (SPIN.update_reference_model_with_policy s).policy_model seq eps := by
  constructor
  · rfl
  · intro seq eps
    unfold log_prob_from_model_and_seq Model.run SPIN.update_reference_model_with_policy
    simp [h]

/-- Witness for C5: on the concrete instance, the architectures agree and the
sync makes reference and policy parameter-identical with identical
log-probabilities. -/
theorem sync_reference_full_overwrite_witness :
    cSPIN.ref_model.arch = cSPIN.policy_model.arch ∧
      ((SPIN.update_reference_model_with_policy cSPIN).ref_model.params
          = (SPIN.update_reference_model_with_policy cSPIN).policy_model.params
        ∧ ∀ (seq : List ℤ) (eps : ℝ),
            log_prob_from_model_and_seq
                (SPIN.update_reference_model_with_policy cSPIN).ref_model seq eps
              = log_prob_from_model_and_seq
                (SPIN.update_reference_model_with_policy cSPIN).policy_model seq eps) :=
  ⟨rfl, sync_reference_full_overwrite cSPIN rfl⟩

/-- Every member of a `zipWith` is the image of some pair of members. -/
theorem exists_of_mem_zipWith {α β γ : Type} {f : α → β → γ} {as : List α}
    {bs : List β} {x : γ} (hx : x ∈ List.zipWith f as bs) : ∃ a b, x = f a b := by
  induction as generalizing bs with
  | nil => simp [List.zipWith] at hx
  | cons a as ih =>
    cases bs with
    | nil => simp [List.zipWith] at hx
    | cons b bs =>
      rw [List.zipWith_cons_cons] at hx
      rcases List.mem_cons.mp hx with h | h
      · exact ⟨a, b, h⟩
      · exact ih h

/-- Softmax probabilities are nonnegative. -/
theorem softmax_nonneg {V : ℕ} (x : Fin V → ℝ) (i : Fin V) : 0 ≤ softmax x i := by
  unfold softmax
  positivity

/-- Softmax probabilities are at most one. -/
theorem softmax_le_one {V : ℕ} (x : Fin V → ℝ) (i : Fin V) : softmax x i ≤ 1 := by
  unfold softmax
  rw [div_le_one (Finset.sum_pos (fun j _ => Real.exp_pos (x j)) ⟨i, Finset.mem_univ i⟩)]
  exact Finset.single_le_sum (f := fun j => Real.exp (x j))
    (fun j _ => (Real.exp_pos (x j)).le) (Finset.mem_univ i)

/-- A gathered softmax probability is nonnegative. -/
theorem gatherProb_softmax_nonneg {V : ℕ} (x : Fin V → ℝ) (t : ℤ) :
    0 ≤ gatherProb (softmax x) t := by
  unfold gatherProb
  split
  · exact softmax_nonneg x _
  · exact le_refl 0

/-- A gathered softmax probability is at most one. -/
theorem gatherProb_softmax_le_one {V : ℕ} (x : Fin V → ℝ) (t : ℤ) :
    gatherProb (softmax x) t ≤ 1 := by
  unfold gatherProb
  split
  · exact softmax_le_one x _
  · exact zero_le_one

/-- C2: for every model honouring the one-logit-row-per-position shape contract
and every token sequence, `log_prob_from_model_and_seq` has the same shape as
the input, and at each position holds the log-probability the model's softmax
distribution at that position assigns to the token actually occurring there —
the teacher-forced next-token framing of the spec. -/
theorem log_prob_shape_and_value {P : Type} {V : ℕ} (m : Model P V)
    (seq : List ℤ) (eps : ℝ) (hWF : m.WF) :
    (log_prob_from_model_and_seq m seq eps).length = seq.length ∧
      ∀ i, i < seq.length →
        (log_prob_from_model_and_seq m seq eps).getD i 0
          = specNextTokenLogProb m seq eps i := by
  have hlen : (log_prob_from_model_and_seq m seq eps).length = seq.length := by
    unfold log_prob_from_model_and_seq
    rw [List.length_zipWith, hWF, min_self]
  refine ⟨hlen, ?_⟩
  intro i hi
  have h1 : i < (log_prob_from_model_and_seq m seq eps).length := by
    rw [hlen]; exact hi
  have h2 : i < (m.run seq).length := by rw [hWF]; exact hi
  rw [List.getD_eq_getElem _ 0 h1]
  unfold specNextTokenLogProb
  rw [List.getD_eq_getElem _ _ h2, List.getD_eq_getElem _ 0 hi]
  unfold log_prob_from_model_and_seq at h1 ⊢
  rw [List.getElem_zipWith]

/-- Witness for C2: the concrete model satisfies the shape contract, and the
theorem applies to it on a concrete sequence. -/
theorem log_prob_shape_and_value_witness :
    cModel.WF ∧
      ((log_prob_from_model_and_seq cModel [0, 1] lpeps).length
          = ([0, 1] : List ℤ).length ∧
        ∀ i, i < ([0, 1] : List ℤ).length →
          (log_prob_from_model_and_seq cModel [0, 1] lpeps).getD i 0
            = specNextTokenLogProb cModel [0, 1] lpeps i) :=
  ⟨by intro s; simp [Model.WF, Model.run, cModel],
    log_prob_shape_and_value cModel [0, 1] lpeps
      (by intro s; simp [Model.WF, Model.run, cModel])⟩

/-- C7: for every model and input sequence, every per-position value of
`log_prob_from_model_and_seq` is at most `0` and bounded below by `log eps`
(hence finite — never `-Inf`), because the gathered probability is clamped to
the positive epsilon before the log is taken, even when it is zero. -/
theorem log_prob_entries_nonpos_and_finite {P : Type} {V : ℕ} (m : Model P V)
    (seq : List ℤ) (eps : ℝ) (h0 : 0 < eps) (h1 : eps ≤ 1) :
    ∀ y ∈ log_prob_from_model_and_seq m seq eps, Real.log eps ≤ y ∧ y ≤ 0 := by
  intro y hy
  unfold log_prob_from_model_and_seq at hy
  obtain ⟨lrow, tok, rfl⟩ := exists_of_mem_zipWith hy
  constructor
  · exact Real.log_le_log h0 (le_max_right _ _)
  · exact Real.log_nonpos (le_trans h0.le (le_max_right _ _))
      (max_le (gatherProb_softmax_le_one _ _) h1)

/-- Witness for C7: the default epsilon `1e-20` is positive and at most one,
and the theorem applies to the concrete model on a concrete sequence. -/
theorem log_prob_entries_nonpos_and_finite_witness :
    (0 < lpeps) ∧ (lpeps ≤ 1) ∧
      ∀ y ∈ log_prob_from_model_and_seq cModel [0, 1] lpeps,
        Real.log lpeps ≤ y ∧ y ≤ 0 :=
  ⟨by norm_num [lpeps], by norm_num [lpeps],
    log_prob_entries_nonpos_and_finite cModel [0, 1] lpeps
      (by norm_num [lpeps]) (by norm_num [lpeps])⟩

/-- C6 counterexample: a concrete call with a pad id configured and an explicit
`generated_seq_mask` also passed. The call does raise, but the event trace at
the moment of the error already contains reads of `prompt_len`: the prompt
masks are built from `prompt_len` (an input tensor) before the
conflicting-mask assertion fires, so the error is not raised "before any input
tensor is read". -/
theorem forward_conflicting_masks_read_before_error :
    exceptOk (cSPIN.forward ⟨[1, 1], [0]⟩ ⟨[1, 1], [0]⟩ (some [0])
        (some [[true]]) none).2.out = false ∧
      REvent.readPromptLen ∈ (cSPIN.forward ⟨[1, 1], [0]⟩ ⟨[1, 1], [0]⟩ (some [0])
        (some [[true]]) none).2.events := by
  constructor
  · rfl
  · decide

/-- C6 (amended): a call whose inputs are not rank-2, or in which a pad id is
configured while an explicit sequence mask is also passed, raises an error and
produces no loss; the error fires before either sequence tensor is read or
mutated and before any model evaluation — though, in the conflicting-mask
case, only after the prompt masks are derived, which reads the `prompt_len`
input tensor. -/
theorem forward_contract_violation_rejected {P : Type} {V : ℕ} (s : SPIN P V)
    (g r : ITensor) (pl : Option (List ℤ)) (gm rm : Option (List (List Bool)))
    (h : ¬(g.ndim = 2 ∧ r.ndim = 2) ∨ (s.pad_id.isSome ∧ (gm.isSome ∨ rm.isSome))) :
    exceptOk (s.forward g r pl gm rm).2.out = false ∧
      (s.forward g r pl gm rm).2.genOut = g ∧
      (s.forward g r pl gm rm).2.realOut = r ∧
      ∀ e ∈ (s.forward g r pl gm rm).2.events, e = REvent.readPromptLen := by
  unfold SPIN.forward SPIN.forwardPrep
  by_cases hnd : g.ndim = 2 ∧ r.ndim = 2
  · rcases h with h | ⟨hpad, hmask⟩
    · exact absurd hnd h
    · rw [if_pos hnd]
      cases pl with
      | none => exact ⟨rfl, rfl, rfl, by intro e he; simp at he⟩
      | some l =>
        obtain ⟨pid, hpid⟩ := Option.isSome_iff_exists.mp hpad
        rw [hpid]
        rcases hmask with hm | hm
        · obtain ⟨gmv, hgm⟩ := Option.isSome_iff_exists.mp hm
          subst hgm
          refine ⟨rfl, rfl, rfl, ?_⟩
          intro e he
          simp only [Option.isSome_some, if_true] at he ⊢
          rcases List.mem_cons.mp he with h1 | h1
          · exact h1
          · simpa using h1
        · obtain ⟨rmv, hrm⟩ := Option.isSome_iff_exists.mp hm
          subst hrm
          cases gm with
          | some gmv =>
            refine ⟨rfl, rfl, rfl, ?_⟩
            intro e he
            simp only [Option.isSome_some, if_true] at he ⊢
            rcases List.mem_cons.mp he with h1 | h1
            · exact h1
            · simpa using h1
          | none =>
            refine ⟨rfl, rfl, rfl, ?_⟩
            intro e he
            simp only [Option.isSome_none, Option.isSome_some, Bool.false_eq_true,
              if_false, if_true] at he ⊢
            rcases List.mem_cons.mp he with h1 | h1
            · exact h1
            · simpa using h1
  · rw [if_neg hnd]
    exact ⟨rfl, rfl, rfl, by intro e he; simp at he⟩

/-- Witness for C6 (amended): a rank-3 generated input is rejected with an
empty event trace and unchanged sequence tensors. -/
theorem forward_contract_violation_rejected_witness :
    (¬((ITensor.mk [1, 1, 1] [0]).ndim = 2 ∧ (ITensor.mk [1, 1] [0]).ndim = 2) ∨
        (cSPIN.pad_id.isSome ∧ ((none : Option (List (List Bool))).isSome ∨
          (none : Option (List (List Bool))).isSome))) ∧
      (exceptOk (cSPIN.forward ⟨[1, 1, 1], [0]⟩ ⟨[1, 1], [0]⟩ (some [0])
          none none).2.out = false ∧
        (cSPIN.forward ⟨[1, 1, 1], [0]⟩ ⟨[1, 1], [0]⟩ (some [0])
          none none).2.genOut = ⟨[1, 1, 1], [0]⟩ ∧
        (cSPIN.forward ⟨[1, 1, 1], [0]⟩ ⟨[1, 1], [0]⟩ (some [0])
          none none).2.realOut = ⟨[1, 1], [0]⟩ ∧
        ∀ e ∈ (cSPIN.forward ⟨[1, 1, 1], [0]⟩ ⟨[1, 1], [0]⟩ (some [0])
          none none).2.events, e = REvent.readPromptLen) :=
  ⟨Or.inl (by decide),
    forward_contract_violation_rejected cSPIN ⟨[1, 1, 1], [0]⟩ ⟨[1, 1], [0]⟩
      (some [0]) none none (Or.inl (by decide))⟩

/-- C8: when a pad id is configured and the call reaches the masking step (rank
check passed, `prompt_len` present, no explicit masks — the mutually-exclusive
mode), `SPIN.forward` sets every pad position of both input sequence tensors to
zero in place, after the validity masks are derived from them, and changes no
other caller-visible state: the prompt-length tensor, the policy model, the
reference model's parameters, architecture and grad flag, λ and the pad id all
come out unchanged. (The body also runs `self.ref_model.eval()`, which clears
the reference module's training-mode flag; that flag is not a parameter, a
configuration value or a tensor.) -/
theorem forward_pad_zeroes_in_place_only {P : Type} {V : ℕ} (s : SPIN P V)
    (pid : ℤ) (g r : ITensor) (pl : List ℤ)
    (hpad : s.pad_id = some pid) (hg : g.ndim = 2) (hr : r.ndim = 2) :
    (s.forward g r (some pl) none none).2.genOut = maskFillPad pid g ∧
      (s.forward g r (some pl) none none).2.realOut = maskFillPad pid r ∧
      (s.forward g r (some pl) none none).2.promptLenOut = some pl ∧
      (s.forward g r (some pl) none none).1.policy_model = s.policy_model ∧
      (s.forward g r (some pl) none none).1.ref_model.params = s.ref_model.params ∧
      (s.forward g r (some pl) none none).1.ref_model.arch = s.ref_model.arch ∧
      (s.forward g r (some pl) none none).1.ref_model.requiresGrad
        = s.ref_model.requiresGrad ∧
      (s.forward g r (some pl) none none).1.lam = s.lam ∧
      (s.forward g r (some pl) none none).1.pad_id = s.pad_id := by
  unfold SPIN.forward SPIN.forwardPrep
  rw [if_pos ⟨hg, hr⟩, hpad]
  exact ⟨rfl, rfl, rfl, rfl, rfl, rfl, rfl, rfl, rfl⟩

/-- Witness for C8: a concrete pad-masked call zeroes exactly the pad positions
of both sequences and leaves everything else unchanged. -/
theorem forward_pad_zeroes_in_place_only_witness :
    cSPIN.pad_id = some (-1) ∧ (ITensor.mk [1, 2] [5, -1]).ndim = 2 ∧
      (ITensor.mk [1, 2] [-1, 3]).ndim = 2 ∧
      ((cSPIN.forward ⟨[1, 2], [5, -1]⟩ ⟨[1, 2], [-1, 3]⟩ (some [0])
          none none).2.genOut = maskFillPad (-1) ⟨[1, 2], [5, -1]⟩ ∧
        (cSPIN.forward ⟨[1, 2], [5, -1]⟩ ⟨[1, 2], [-1, 3]⟩ (some [0])
          none none).2.realOut = maskFillPad (-1) ⟨[1, 2], [-1, 3]⟩ ∧
        (cSPIN.forward ⟨[1, 2], [5, -1]⟩ ⟨[1, 2], [-1, 3]⟩ (some [0])
          none none).2.promptLenOut = some [0] ∧
        (cSPIN.forward ⟨[1, 2], [5, -1]⟩ ⟨[1, 2], [-1, 3]⟩ (some [0])
          none none).1.policy_model = cSPIN.policy_model ∧
        (cSPIN.forward ⟨[1, 2], [5, -1]⟩ ⟨[1, 2], [-1, 3]⟩ (some [0])
          none none).1.ref_model.params = cSPIN.ref_model.params ∧
        (cSPIN.forward ⟨[1, 2], [5, -1]⟩ ⟨[1, 2], [-1, 3]⟩ (some [0])
          none none).1.ref_model.arch = cSPIN.ref_model.arch ∧
        (cSPIN.forward ⟨[1, 2], [5, -1]⟩ ⟨[1, 2], [-1, 3]⟩ (some [0])
          none none).1.ref_model.requiresGrad = cSPIN.ref_model.requiresGrad ∧
        (cSPIN.forward ⟨[1, 2], [5, -1]⟩ ⟨[1, 2], [-1, 3]⟩ (some [0])
          none none).1.lam = cSPIN.lam ∧
        (cSPIN.forward ⟨[1, 2], [5, -1]⟩ ⟨[1, 2], [-1, 3]⟩ (some [0])
          none none).1.pad_id = cSPIN.pad_id) :=
  ⟨rfl, by decide, by decide,
    forward_pad_zeroes_in_place_only cSPIN (-1) ⟨[1, 2], [5, -1]⟩
      ⟨[1, 2], [-1, 3]⟩ [0] rfl (by decide) (by decide)⟩

/-! ### Helper lemmas towards the full-loss theorem -/

/-- A flat list of length `b * n` splits into `b` chunks. -/
theorem chunks_length {α : Type} (n : ℕ) (hn : 0 < n) :
    ∀ (b : ℕ) (l : List α), l.length = b * n → (chunks n l).length = b := by
  intro b
  induction b with
  | zero =>
    intro l hl
    rw [Nat.zero_mul, List.length_eq_zero] at hl
    subst hl
    simp [chunks]
  | succ b ih =>
    intro l hl
    rw [Nat.succ_mul] at hl
    cases l with
    | nil =>
      rw [List.length_nil] at hl
      omega
    | cons x xs =>
      rw [chunks, List.length_cons, ih (xs.drop (n - 1)) ?_]
      rw [List.length_drop]
      rw [List.length_cons] at hl
      omega

/-- Every chunk of a flat list of length `b * n` has length `n`. -/
theorem chunks_row_length {α : Type} (n : ℕ) (hn : 0 < n) :
    ∀ (b : ℕ) (l : List α), l.length = b * n →
      ∀ row ∈ chunks n l, row.length = n := by
  intro b
  induction b with
  | zero =>
    intro l hl row hrow
    rw [Nat.zero_mul, List.length_eq_zero] at hl
    subst hl
    simp [chunks] at hrow
  | succ b ih =>
    intro l hl row hrow
    rw [Nat.succ_mul] at hl
    cases l with
    | nil =>
      rw [List.length_nil] at hl
      omega
    | cons x xs =>
      rw [List.length_cons] at hl
      rw [chunks] at hrow
      rcases List.mem_cons.mp hrow with h | h
      · subst h
        rw [List.length_cons, List.length_take]
        omega
      · refine ih (xs.drop (n - 1)) ?_ row h
        rw [List.length_drop]
        omega

/-- `chunks` commutes with `map` (auxiliary form, by fuel on the length). -/
theorem chunks_map_aux {α β : Type} (n : ℕ) (f : α → β) :
    ∀ (k : ℕ) (l : List α), l.length ≤ k →
      chunks n (l.map f) = (chunks n l).map (List.map f) := by
  intro k
  induction k with
  | zero =>
    intro l hl
    rw [Nat.le_zero, List.length_eq_zero] at hl
    subst hl
    simp [chunks]
  | succ k ih =>
    intro l hl
    cases l with
    | nil => simp [chunks]
    | cons x xs =>
      rw [List.map_cons, chunks, chunks, List.map_cons]
      congr 1
      · rw [List.map_cons, List.map_take]
      · rw [← List.map_drop]
        refine ih (xs.drop (n - 1)) ?_
        rw [List.length_drop]
        rw [List.length_cons] at hl
        omega

/-- `chunks` commutes with `map`. -/
theorem chunks_map {α β : Type} (n : ℕ) (f : α → β) (l : List α) :
    chunks n (l.map f) = (chunks n l).map (List.map f) :=
  chunks_map_aux n f l.length l le_rfl

/-- Zeroing the pad positions of a rank-2 tensor zeroes them row by row. -/
theorem rows2_maskFillPad (pid : ℤ) (t : ITensor) :
    (maskFillPad pid t).rows2 = t.rows2.map (zeroRow pid) := by
  unfold ITensor.rows2 maskFillPad zeroRow
  exact chunks_map _ _ t.data

/-- The sum of a row zeroed outside its mask is the sum of the mask-selected
entries. -/
theorem masked_sum_filter {α : Type} [LinearOrderedField α] :
    ∀ (xs : List α) (m : List Bool),
      (List.zipWith (fun x b => if b then x else (0 : α)) xs m).sum
        = (((xs.zip m).filter (fun pr => pr.2)).map (fun pr => pr.1)).sum := by
  intro xs
  induction xs with
  | nil => intro m; simp
  | cons x xs ih =>
    intro m
    cases m with
    | nil => simp
    | cons b bs => cases b <;> simp [ih bs]

/-- The number of `true` entries of a mask is the number of mask-selected
entries of the zipped row, when the lengths agree. -/
theorem count_filter_length {α : Type} :
    ∀ (xs : List α) (m : List Bool), m.length = xs.length →
      m.count true = ((xs.zip m).filter (fun pr => pr.2)).length := by
  intro xs
  induction xs with
  | nil =>
    intro m h
    rw [List.length_nil, List.length_eq_zero] at h
    subst h
    rfl
  | cons x xs ih =>
    intro m h
    cases m with
    | nil => simp at h
    | cons b bs =>
      rw [List.length_cons, List.length_cons] at h
      cases b <;> simp [List.count_cons, ih bs (by omega)]

/-- The source `masked_mean` agrees with the spec-side Masked Reduction on any
row whose mask has the same length, for any clamp epsilon in `(0, 1]`: on an
all-masked row both force `0`, and otherwise the valid count is at least `1`,
so the epsilon clamp leaves the divisor untouched. -/
theorem masked_mean_eq_specMaskedMean {α : Type} [LinearOrderedField α]
    (xs : List α) (m : List Bool) (eps : α)
    (hlen : m.length = xs.length) (h1 : eps ≤ 1) :
    masked_mean xs (some m) eps = specMaskedMean xs m := by
  unfold masked_mean specMaskedMean
  simp only [List.length_map]
  rw [masked_sum_filter, count_filter_length xs m hlen]
  by_cases hc : ((xs.zip m).filter (fun pr => pr.2)).length = 0
  · simp [hc]
  · rw [if_neg hc, if_neg hc]
    congr 1
    refine max_eq_right (le_trans h1 ?_)
    exact_mod_cast Nat.one_le_iff_ne_zero.mpr hc

/-- Per-position log-probabilities have one entry per input position. -/
theorem length_lp_row {P : Type} {V : ℕ} (m : Model P V) (hWF : m.WF)
    (row : List ℤ) (eps : ℝ) :
    (log_prob_from_model_and_seq m row eps).length = row.length := by
  unfold log_prob_from_model_and_seq
  rw [List.length_zipWith, hWF, min_self]

/-- Zeroing pad positions preserves the row length. -/
theorem zeroRow_length (pid : ℤ) (row : List ℤ) :
    (zeroRow pid row).length = row.length := List.length_map row _

/-- `andMask` on two equally long mask lists whose rows all have length `n`
takes the no-broadcast branch and conjoins row by row. -/
theorem andMask_of_uniform (m1 m2 : List (List Bool)) (n : ℕ)
    (hlen : m1.length = m2.length)
    (h1 : ∀ row ∈ m1, row.length = n) (h2 : ∀ row ∈ m2, row.length = n) :
    andMask m1 m2
      = some ((m1.zip m2).map
          (fun pr => List.zipWith (fun a b => a && b) pr.1 pr.2)) := by
  have hcond : ∀ pr ∈ m1.zip m2, (Prod.fst pr).length = (Prod.snd pr).length := by
    intro pr hpr
    obtain ⟨ha, hb⟩ := List.of_mem_zip hpr
    rw [h1 pr.1 ha, h2 pr.2 hb]
  unfold andMask bcastPairs
  rw [if_pos hlen]
  dsimp only
  rw [if_pos hcond]

/-- `maybe_and_mask` of two present masks is the plain conjunction. -/
theorem maybe_and_mask_some_some (m1 m2 m : List (List Bool))
    (h : andMask m1 m2 = some m) :
    maybe_and_mask (some m1) (some m2) = .ok (some m) := by
  unfold maybe_and_mask
  dsimp only
  rw [h]

/-- `masked_mean_batched` on a mask of matching batch size and matching row
lengths reduces row by row. -/
theorem masked_mean_batched_of_uniform {α : Type} [LinearOrderedField α]
    (t : List (List α)) (m : List (List Bool)) (eps : α)
    (hlen : m.length = t.length)
    (hin : ∀ pr ∈ t.zip m, (Prod.fst pr).length = (Prod.snd pr).length) :
    masked_mean_batched t (some m) eps
      = .ok ((t.zip m).map (fun pr => masked_mean pr.1 (some pr.2) eps)) := by
  unfold masked_mean_batched
  dsimp only
  rw [if_pos hlen]
  dsimp only
  rw [if_pos hin]

/-- The mask `SPIN.forward` hands to `masked_mean` for one row — the row's
pad-validity mask conjoined with the negated prompt mask — is exactly the
claim's position-indexed selection: valid (non-pad) and position index at
least the prompt length. -/
theorem forward_row_mask_eq_specSelMask (row : List ℤ) (pid plen : ℤ) (n : ℕ)
    (hrow : row.length = n) :
    List.zipWith (fun a b => a && b)
        (row.map (fun tok => decide (tok ≠ pid)))
        ((List.range n).map (fun (j : ℕ) => !(decide ((j : ℤ) < plen))))
      = specSelMask row pid plen := by
  subst hrow
  unfold specSelMask
  apply List.ext_getElem
  · rw [List.length_zipWith, List.length_map, List.length_map, List.length_range,
      List.length_map, List.length_range, min_self]
  · intro i h1i h2i
    have hi : i < row.length := by
      rw [List.length_map, List.length_range] at h2i
      exact h2i
    rw [List.getElem_zipWith, List.getElem_map, List.getElem_map,
      List.getElem_range, List.getElem_map, List.getElem_range,
      List.getD_eq_getElem row 0 hi]
    congr 1
    rw [← decide_not]
    exact decide_eq_decide.mpr not_lt

/-- The per-row reduction `SPIN.forward` performs equals the claim's
Masked-Reduction scalar for that row. -/
theorem masked_mean_row_eq_specRowScore {P : Type} {V : ℕ} (m : Model P V)
    (hWF : m.WF) (row : List ℤ) (pid plen : ℤ) (n : ℕ) (hrow : row.length = n) :
    masked_mean (log_prob_from_model_and_seq m (zeroRow pid row) lpeps)
        (some (List.zipWith (fun a b => a && b)
          (row.map (fun tok => decide (tok ≠ pid)))
          ((List.range n).map (fun (j : ℕ) => !(decide ((j : ℤ) < plen)))))) mmeps
      = specRowScore m row pid plen := by
  rw [forward_row_mask_eq_specSelMask row pid plen n hrow]
  unfold specRowScore
  apply masked_mean_eq_specMaskedMean
  · unfold specSelMask
    rw [List.length_map, List.length_range, length_lp_row m hWF, zeroRow_length]
  · norm_num [mmeps]

/-- On the pad-configured, rank-2, no-explicit-masks path, `SPIN.forward`'s
loss output is `forwardMainOut` of the prepared (pad-zeroed, masked) data. -/
theorem forward_out_pad_path {P : Type} {V : ℕ} (s : SPIN P V) (pid : ℤ)
    (g r : ITensor) (pl : List ℤ)
    (hpad : s.pad_id = some pid) (hg2 : g.ndim = 2) (hr2 : r.ndim = 2) :
    (s.forward g r (some pl) none none).2.out
      = s.forwardMainOut
          ⟨maskFillPad pid g, maskFillPad pid r,
            some (padMaskRows pid g.rows2), some (padMaskRows pid r.rows2),
            promptMask (g.shape.getD 1 0) pl, promptMask (r.shape.getD 1 0) pl, pl,
            [REvent.readPromptLen, REvent.readPromptLen, REvent.readGeneratedSeq,
             REvent.mutateGeneratedSeq, REvent.readRealSeq, REvent.mutateRealSeq]⟩ := by
  unfold SPIN.forward SPIN.forwardPrep
  rw [if_pos ⟨hg2, hr2⟩, hpad]
  rfl

/-- C1: on rank-2 inputs with a per-row prompt-length vector, with a pad id
configured (and hence no explicit masks), `SPIN.forward` returns exactly the
batch mean over rows of
`-log_sigmoid(λ * ((policy_real - ref_real) - (policy_generated - ref_generated)))`,
where each of the four per-row scalars is the Masked-Reduction mean of that
model's per-token log-probabilities over exactly the positions that are valid
(non-pad) and not in the prompt (position index at least the prompt length). -/
theorem forward_computes_spec_loss {P : Type} {V : ℕ} (s : SPIN P V) (pid : ℤ)
    (g r : ITensor) (b n₁ n₂ : ℕ) (pl : List ℤ)
    (hpad : s.pad_id = some pid)
    (hWFp : s.policy_model.WF) (hWFr : s.ref_model.WF)
    (hgs : g.shape = [b, n₁]) (hgd : g.data.length = b * n₁) (hn₁ : 0 < n₁)
    (hrs : r.shape = [b, n₂]) (hrd : r.data.length = b * n₂) (hn₂ : 0 < n₂)
    (hpl : pl.length = b) :
    (s.forward g r (some pl) none none).2.out
      = .ok (specSPINLoss s pid g.rows2 r.rows2 pl) := by
  have hg2 : g.ndim = 2 := by rw [ITensor.ndim, hgs]; rfl
  have hr2 : r.ndim = 2 := by rw [ITensor.ndim, hrs]; rfl
  have hgn : g.shape.getD 1 0 = n₁ := by rw [hgs]; rfl
  have hrn : r.shape.getD 1 0 = n₂ := by rw [hrs]; rfl
  have hgrB : g.rows2.length = b := by
    rw [ITensor.rows2, hgn]; exact chunks_length n₁ hn₁ b g.data hgd
  have hrrB : r.rows2.length = b := by
    rw [ITensor.rows2, hrn]; exact chunks_length n₂ hn₂ b r.data hrd
  have hgrow : ∀ row ∈ g.rows2, row.length = n₁ := by
    rw [ITensor.rows2, hgn]; exact chunks_row_length n₁ hn₁ b g.data hgd
  have hrrow : ∀ row ∈ r.rows2, row.length = n₂ := by
    rw [ITensor.rows2, hrn]; exact chunks_row_length n₂ hn₂ b r.data hrd
  -- row-length facts for the derived masks and log-probability tensors
  have hVGrow : ∀ row ∈ padMaskRows pid g.rows2, row.length = n₁ := by
    intro row hrow
    obtain ⟨o, ho, rfl⟩ := List.mem_map.mp hrow
    rw [List.length_map]; exact hgrow o ho
  have hVRrow : ∀ row ∈ padMaskRows pid r.rows2, row.length = n₂ := by
    intro row hrow
    obtain ⟨o, ho, rfl⟩ := List.mem_map.mp hrow
    rw [List.length_map]; exact hrrow o ho
  have hNPGrow : ∀ row ∈ notMask (promptMask n₁ pl), row.length = n₁ := by
    intro row hrow
    obtain ⟨o, ho, rfl⟩ := List.mem_map.mp hrow
    obtain ⟨L, hL, rfl⟩ := List.mem_map.mp ho
    rw [List.length_map, List.length_map, List.length_range]
  have hNPRrow : ∀ row ∈ notMask (promptMask n₂ pl), row.length = n₂ := by
    intro row hrow
    obtain ⟨o, ho, rfl⟩ := List.mem_map.mp hrow
    obtain ⟨L, hL, rfl⟩ := List.mem_map.mp ho
    rw [List.length_map, List.length_map, List.length_range]
  -- the combined generated-side and real-side masks
  have hMG : maybe_and_mask (some (padMaskRows pid g.rows2))
      (some (notMask (promptMask n₁ pl)))
      = .ok (some (((padMaskRows pid g.rows2).zip (notMask (promptMask n₁ pl))).map
          (fun pr => List.zipWith (fun a b => a && b) pr.1 pr.2))) := by
    refine maybe_and_mask_some_some _ _ _
      (andMask_of_uniform _ _ n₁ ?_ hVGrow hNPGrow)
    simp [padMaskRows, notMask, promptMask, hgrB, hpl]
  have hMR : maybe_and_mask (some (padMaskRows pid r.rows2))
      (some (notMask (promptMask n₂ pl)))
      = .ok (some (((padMaskRows pid r.rows2).zip (notMask (promptMask n₂ pl))).map
          (fun pr => List.zipWith (fun a b => a && b) pr.1 pr.2))) := by
    refine maybe_and_mask_some_some _ _ _
      (andMask_of_uniform _ _ n₂ ?_ hVRrow hNPRrow)
    simp [padMaskRows, notMask, promptMask, hrrB, hpl]
  have hMGrow : ∀ row ∈ ((padMaskRows pid g.rows2).zip
      (notMask (promptMask n₁ pl))).map
        (fun pr => List.zipWith (fun a b => a && b) pr.1 pr.2),
      row.length = n₁ := by
    intro row hrow
    obtain ⟨pr, hpr, rfl⟩ := List.mem_map.mp hrow
    obtain ⟨h1, h2⟩ := List.of_mem_zip hpr
    rw [List.length_zipWith, hVGrow pr.1 h1, hNPGrow pr.2 h2, min_self]
  have hMRrow : ∀ row ∈ ((padMaskRows pid r.rows2).zip
      (notMask (promptMask n₂ pl))).map
        (fun pr => List.zipWith (fun a b => a && b) pr.1 pr.2),
      row.length = n₂ := by
    intro row hrow
    obtain ⟨pr, hpr, rfl⟩ := List.mem_map.mp hrow
    obtain ⟨h1, h2⟩ := List.of_mem_zip hpr
    rw [List.length_zipWith, hVRrow pr.1 h1, hNPRrow pr.2 h2, min_self]
  have hMGlen : (((padMaskRows pid g.rows2).zip (notMask (promptMask n₁ pl))).map
      (fun pr => List.zipWith (fun a b => a && b) pr.1 pr.2)).length = b := by
    simp [padMaskRows, notMask, promptMask, hgrB, hpl]
  have hMRlen : (((padMaskRows pid r.rows2).zip (notMask (promptMask n₂ pl))).map
      (fun pr => List.zipWith (fun a b => a && b) pr.1 pr.2)).length = b := by
    simp [padMaskRows, notMask, promptMask, hrrB, hpl]
  -- log-probability row lengths
  have hTGp : ∀ row ∈ (g.rows2.map (zeroRow pid)).map
      (fun row => log_prob_from_model_and_seq s.policy_model row lpeps),
      row.length = n₁ := by
    intro row hrow
    obtain ⟨z, hz, rfl⟩ := List.mem_map.mp hrow
    obtain ⟨o, ho, rfl⟩ := List.mem_map.mp hz
    rw [length_lp_row _ hWFp, zeroRow_length]; exact hgrow o ho
  have hTGr : ∀ row ∈ (g.rows2.map (zeroRow pid)).map
      (fun row => log_prob_from_model_and_seq s.ref_model row lpeps),
      row.length = n₁ := by
    intro row hrow
    obtain ⟨z, hz, rfl⟩ := List.mem_map.mp hrow
    obtain ⟨o, ho, rfl⟩ := List.mem_map.mp hz
    rw [length_lp_row _ hWFr, zeroRow_length]; exact hgrow o ho
  have hTRp : ∀ row ∈ (r.rows2.map (zeroRow pid)).map
      (fun row => log_prob_from_model_and_seq s.policy_model row lpeps),
      row.length = n₂ := by
    intro row hrow
    obtain ⟨z, hz, rfl⟩ := List.mem_map.mp hrow
    obtain ⟨o, ho, rfl⟩ := List.mem_map.mp hz
    rw [length_lp_row _ hWFp, zeroRow_length]; exact hrrow o ho
  have hTRr : ∀ row ∈ (r.rows2.map (zeroRow pid)).map
      (fun row => log_prob_from_model_and_seq s.ref_model row lpeps),
      row.length = n₂ := by
    intro row hrow
    obtain ⟨z, hz, rfl⟩ := List.mem_map.mp hrow
    obtain ⟨o, ho, rfl⟩ := List.mem_map.mp hz
    rw [length_lp_row _ hWFr, zeroRow_length]; exact hrrow o ho
  -- the four batched reductions
  have hB1 : masked_mean_batched
      ((maskFillPad pid g).rows2.map
        (fun row => log_prob_from_model_and_seq s.policy_model row lpeps))
      (some (((padMaskRows pid g.rows2).zip (notMask (promptMask n₁ pl))).map
        (fun pr => List.zipWith (fun a b => a && b) pr.1 pr.2))) mmeps
      = .ok (List.map (fun pr => masked_mean pr.1 (some pr.2) mmeps)
          (((g.rows2.map (zeroRow pid)).map
              (fun row => log_prob_from_model_and_seq s.policy_model row lpeps)).zip
            (((padMaskRows pid g.rows2).zip (notMask (promptMask n₁ pl))).map
              (fun pr => List.zipWith (fun a b => a && b) pr.1 pr.2)))) := by
    rw [rows2_maskFillPad]
    refine masked_mean_batched_of_uniform _ _ _ ?_ ?_
    · rw [hMGlen, List.length_map, List.length_map, hgrB]
    · intro pr hpr
      obtain ⟨h1, h2⟩ := List.of_mem_zip hpr
      rw [hTGp pr.1 h1, hMGrow pr.2 h2]
  have hB2 : masked_mean_batched
      ((maskFillPad pid g).rows2.map
        (fun row => log_prob_from_model_and_seq s.ref_model row lpeps))
      (some (((padMaskRows pid g.rows2).zip (notMask (promptMask n₁ pl))).map
        (fun pr => List.zipWith (fun a b => a && b) pr.1 pr.2))) mmeps
      = .ok (List.map (fun pr => masked_mean pr.1 (some pr.2) mmeps)
          (((g.rows2.map (zeroRow pid)).map
              (fun row => log_prob_from_model_and_seq s.ref_model row lpeps)).zip
            (((padMaskRows pid g.rows2).zip (notMask (promptMask n₁ pl))).map
              (fun pr => List.zipWith (fun a b => a && b) pr.1 pr.2)))) := by
    rw [rows2_maskFillPad]
    refine masked_mean_batched_of_uniform _ _ _ ?_ ?_
    · rw [hMGlen, List.length_map, List.length_map, hgrB]
    · intro pr hpr
      obtain ⟨h1, h2⟩ := List.of_mem_zip hpr
      rw [hTGr pr.1 h1, hMGrow pr.2 h2]
  have hB3 : masked_mean_batched
      ((maskFillPad pid r).rows2.map
        (fun row => log_prob_from_model_and_seq s.policy_model row lpeps))
      (some (((padMaskRows pid r.rows2).zip (notMask (promptMask n₂ pl))).map
        (fun pr => List.zipWith (fun a b => a && b) pr.1 pr.2))) mmeps
      = .ok (List.map (fun pr => masked_mean pr.1 (some pr.2) mmeps)
          (((r.rows2.map (zeroRow pid)).map
              (fun row => log_prob_from_model_and_seq s.policy_model row lpeps)).zip
            (((padMaskRows pid r.rows2).zip (notMask (promptMask n₂ pl))).map
              (fun pr => List.zipWith (fun a b => a && b) pr.1 pr.2)))) := by
    rw [rows2_maskFillPad]
    refine masked_mean_batched_of_uniform _ _ _ ?_ ?_
    · rw [hMRlen, List.length_map, List.length_map, hrrB]
    · intro pr hpr
      obtain ⟨h1, h2⟩ := List.of_mem_zip hpr
      rw [hTRp pr.1 h1, hMRrow pr.2 h2]
  have hB4 : masked_mean_batched
      ((maskFillPad pid r).rows2.map
        (fun row => log_prob_from_model_and_seq s.ref_model row lpeps))
      (some (((padMaskRows pid r.rows2).zip (notMask (promptMask n₂ pl))).map
        (fun pr => List.zipWith (fun a b => a && b) pr.1 pr.2))) mmeps
      = .ok (List.map (fun pr => masked_mean pr.1 (some pr.2) mmeps)
          (((r.rows2.map (zeroRow pid)).map
              (fun row => log_prob_from_model_and_seq s.ref_model row lpeps)).zip
            (((padMaskRows pid r.rows2).zip (notMask (promptMask n₂ pl))).map
              (fun pr => List.zipWith (fun a b => a && b) pr.1 pr.2)))) := by
    rw [rows2_maskFillPad]
    refine masked_mean_batched_of_uniform _ _ _ ?_ ?_
    · rw [hMRlen, List.length_map, List.length_map, hrrB]
    · intro pr hpr
      obtain ⟨h1, h2⟩ := List.of_mem_zip hpr
      rw [hTRr pr.1 h1, hMRrow pr.2 h2]
  rw [forward_out_pad_path s pid g r pl hpad hg2 hr2, hgn, hrn]
  unfold SPIN.forwardMainOut
  dsimp only
  rw [hMG]
  dsimp only
  rw [hMR]
  dsimp only
  rw [hB1]
  dsimp only
  rw [hB2]
  dsimp only
  rw [hB3]
  dsimp only
  rw [hB4]
  dsimp only
  unfold specSPINLoss
  dsimp only
  congr 1
  apply congrArg (fun l : List ℝ => l.sum / (l.length : ℝ))
  apply List.ext_getElem
  · simp only [List.length_zipWith, List.length_map, List.length_zip,
      List.length_range, padMaskRows, notMask, promptMask, hgrB, hrrB, hpl]
    omega
  · intro i h1i h2i
    have hib : i < b := by
      clear h1i
      simp only [List.length_zipWith, List.length_map, List.length_zip,
        List.length_range, padMaskRows, notMask, promptMask, hgrB, hrrB, hpl] at h2i
      omega
    have hig : i < g.rows2.length := by rw [hgrB]; exact hib
    have hir : i < r.rows2.length := by rw [hrrB]; exact hib
    have hipl : i < pl.length := by rw [hpl]; exact hib
    simp only [List.getElem_zipWith, List.getElem_map, List.getElem_zip,
      padMaskRows, notMask, promptMask, List.map_map, Function.comp_def]
    rw [masked_mean_row_eq_specRowScore s.policy_model hWFp (r.rows2[i])
        pid (pl[i]) n₂ (hrrow _ (List.getElem_mem hir)),
      masked_mean_row_eq_specRowScore s.ref_model hWFr (r.rows2[i])
        pid (pl[i]) n₂ (hrrow _ (List.getElem_mem hir)),
      masked_mean_row_eq_specRowScore s.policy_model hWFp (g.rows2[i])
        pid (pl[i]) n₁ (hgrow _ (List.getElem_mem hig)),
      masked_mean_row_eq_specRowScore s.ref_model hWFr (g.rows2[i])
        pid (pl[i]) n₁ (hgrow _ (List.getElem_mem hig))]
    unfold lossPerRow
    rfl

/-- Witness for C1: on the concrete instance (batch 1, length-2 sequences with
one pad position, prompt length 1), the forward loss equals the spec formula. -/
theorem forward_computes_spec_loss_witness :
    cSPIN.pad_id = some (-1) ∧ cSPIN.policy_model.WF ∧ cSPIN.ref_model.WF ∧
      (cSPIN.forward ⟨[1, 2], [0, -1]⟩ ⟨[1, 2], [1, 0]⟩ (some [1]) none none).2.out
        = .ok (specSPINLoss cSPIN (-1) (ITensor.mk [1, 2] [0, -1]).rows2
            (ITensor.mk [1, 2] [1, 0]).rows2 [1]) :=
  ⟨rfl,
    by intro q; simp [Model.WF, Model.run, cSPIN, SPIN.mk', cModel, freeze_all_layers_],
    by intro q; simp [Model.WF, Model.run, cSPIN, SPIN.mk', cModel, freeze_all_layers_],
    forward_computes_spec_loss cSPIN (-1) ⟨[1, 2], [0, -1]⟩ ⟨[1, 2], [1, 0]⟩ 1 2 2 [1]
      rfl
      (by intro q; simp [Model.WF, Model.run, cSPIN, SPIN.mk', cModel, freeze_all_layers_])
      (by intro q; simp [Model.WF, Model.run, cSPIN, SPIN.mk', cModel, freeze_all_layers_])
      rfl (by decide) (by decide) rfl (by decide) (by decide) rfl⟩

end SpinVerify
